import Mathlib

/-
  Verification of the poetry ingestion/search service
  (src/poetry_service/scripts/import_data.py and
   src/poetry_service/fastapi_app/main.py).

  Shallow embedding: Python values parsed from JSON files are modelled by
  the inductive type `Json` (Python `None` is `Json.null`).  Operations
  that can raise in Python are modelled in `Except String` / `Option`;
  operations that cannot raise are total Lean functions.  The OpenCC
  traditional→simplified converter is an external library and is modelled
  as an abstract function parameter `conv`; in concrete evaluations it is
  instantiated with `id` (t2s is the identity on the simplified-script
  strings used there, and it never touches whitespace or length-changes
  the punctuation involved).  Python `str.strip` is modelled by
  `String.trim`, Python whitespace by `Char.isWhitespace`.
-/

set_option maxRecDepth 4000

namespace Poetry

/-- Model of Python values obtained from `json.load` (Python `None` is `null`). -/
inductive Json where
  | null : Json
  | bool : Bool → Json
  | num : Int → Json
  | str : String → Json
  | arr : List Json → Json
  | obj : List (String × Json) → Json

/-- First-match association-list lookup (Python dict lookup; JSON parsing
    leaves keys unique). -/
def lookupKey : List (String × Json) → String → Option Json
  | [], _ => none
  | (k, v) :: rest, key => if k = key then some v else lookupKey rest key

/-- `d[k]` as a partial lookup: `some` iff `d` is a mapping containing `k`. -/
def Json.find : Json → String → Option Json
  | .obj kvs, k => lookupKey kvs k
  | _, _ => none

/-- Python `d.get(k, default)`. -/
def Json.getD (d : Json) (k : String) (default : Json) : Json :=
  match d.find k with
  | some v => v
  | none => default

/-- Python `k in d` (for mappings; `False` otherwise). -/
def Json.hasKey (d : Json) (k : String) : Bool :=
  (d.find k).isSome

/-- Python `isinstance(v, dict)`. -/
def Json.isObj : Json → Bool
  | .obj _ => true
  | _ => false

/-- Python `isinstance(v, list)`. -/
def Json.isArr : Json → Bool
  | .arr _ => true
  | _ => false

/-- Python truthiness of a JSON value. -/
def pyTruthy : Json → Bool
  | .null => false
  | .bool b => b
  | .num n => n != 0
  | .str s => !s.isEmpty
  | .arr xs => !xs.isEmpty
  | .obj kvs => !kvs.isEmpty

mutual
/-- Python `repr` of a JSON value (used by `str` on containers).  The exact
    rendering of quotes/spacing is only ever used for substring tests on
    Chinese keywords, which it preserves faithfully. -/
def pyRepr : Json → String
  | .null => "None"
  | .bool true => "True"
  | .bool false => "False"
  | .num n => toString n
  | .str s => "\x27" ++ s ++ "\x27"
  | .arr xs => "[" ++ pyReprList xs ++ "]"
  | .obj kvs => "\x7b" ++ pyReprObj kvs ++ "\x7d"

def pyReprList : List Json → String
  | [] => ""
  | [x] => pyRepr x
  | x :: y :: xs => pyRepr x ++ ", " ++ pyReprList (y :: xs)

def pyReprObj : List (String × Json) → String
  | [] => ""
  | [(k, v)] => "\x27" ++ k ++ "\x27: " ++ pyRepr v
  | (k, v) :: p :: xs => "\x27" ++ k ++ "\x27: " ++ pyRepr v ++ ", " ++ pyReprObj (p :: xs)
end

/-- Python `str(v)`. -/
def pyStr : Json → String
  | .str s => s
  | v => pyRepr v

/-- Python `''.join(v)`: defined for a list of strings, a string (joining
    its characters), or a mapping (joining its keys); raises `TypeError`
    (modelled as `none`) otherwise. -/
def joinStrList : List Json → Option String
  | [] => some ""
  | .str s :: rest => (joinStrList rest).map (fun t => s ++ t)
  | _ => none

def pyJoin : Json → Option String
  | .str s => some s
  | .arr xs => joinStrList xs
  | .obj kvs => some (String.join (kvs.map (fun p => p.1)))
  | _ => none

/-- Does `needle` occur as a contiguous run inside `hay`? -/
def containsRun (needle : List Char) : List Char → Bool
  | [] => needle.isEmpty
  | c :: rest => List.isPrefixOf needle (c :: rest) || containsRun needle rest

/-- Python `needle in hay` on strings. -/
def strContains (hay needle : String) : Bool :=
  containsRun needle.data hay.data

/-- Python `s[:n]` (first `n` code points). -/
def pyTrunc (s : String) (n : Nat) : String :=
  String.mk (s.data.take n)

/-- Python `s.strip()` (drop leading/trailing whitespace). -/
def pyStrip (s : String) : String :=
  String.mk (((s.data.dropWhile Char.isWhitespace).reverse.dropWhile
    Char.isWhitespace).reverse)

/-- Python `s.lower()` (the inputs lowered here are ASCII path fragments
    and Chinese text, on which ASCII lowering coincides with Python). -/
def pyLower (s : String) : String :=
  String.mk (s.data.map Char.toLower)

/-! ### Text normalizer (`split_sentences`, import_data.py lines 479-483)

`noise_pattern = r'\[\d+\]|【.*?】|（.*?）|\(.*?\)|<.*?>'` removed by
`re.sub`, then `re.sub(r'\s+', '', ·)`, then `re.split` on `[。！？]`,
then fragments whose trimmed length is `< 4` are dropped. -/

/-- After `'['`: one or more digits then `']'` (the `\[\d+\]` alternative). -/
def skipDigitsMore : List Char → Option (List Char)
  | ']' :: rest => some rest
  | c :: rest => if c.isDigit then skipDigitsMore rest else none
  | [] => none

def skipDigitsThen : List Char → Option (List Char)
  | c :: rest => if c.isDigit then skipDigitsMore rest else none
  | [] => none

/-- Non-greedy `.*?c`: consume up to the first `c`, failing at a newline
    (regex `.` does not match `'\n'`) or end of input. -/
def findClose (close : Char) : List Char → Option (List Char)
  | [] => none
  | c :: rest =>
    if c = close then some rest
    else if c = '\n' then none
    else findClose close rest

/-- Try the noise alternatives, in the pattern's order, at the current
    position; return the rest of the input after the match. -/
def matchNoiseAt : List Char → Option (List Char)
  | '[' :: rest => skipDigitsThen rest
  | '【' :: rest => findClose '】' rest
  | '（' :: rest => findClose '）' rest
  | '(' :: rest => findClose ')' rest
  | '<' :: rest => findClose '>' rest
  | _ => none

/-- Leftmost, repeated removal of noise matches (`noise_pattern.sub('', ·)`).
    A match always consumes at least one character, so `fuel = length`
    suffices. -/
def noiseSubAux : Nat → List Char → List Char
  | 0, cs => cs
  | _ + 1, [] => []
  | fuel + 1, c :: cs =>
    match matchNoiseAt (c :: cs) with
    | some rest => noiseSubAux fuel rest
    | none => c :: noiseSubAux fuel cs

def noiseSub (s : String) : String :=
  String.mk (noiseSubAux s.data.length s.data)

/-- Sentence-terminal punctuation class `[。！？]`. -/
def sentencePunct (c : Char) : Bool :=
  c = '。' || c = '！' || c = '？'

/-- `re.split` on the punctuation class (keeps empty fragments, including a
    trailing one). -/
def splitOnPunct : List Char → List (List Char)
  | [] => [[]]
  | c :: rest =>
    match splitOnPunct rest, sentencePunct c with
    | acc, true => [] :: acc
    | [], false => [[c]]
    | a :: as, false => (c :: a) :: as

def split_sentences (text : String) : List String :=
  let cleaned := noiseSub text
  let nows := String.mk (cleaned.data.filter (fun c => !c.isWhitespace))
  let sentences := (splitOnPunct nows.data).map String.mk
  sentences.filterMap (fun s =>
    let t := pyStrip s
    if 4 ≤ t.length then some t else none)

/-! ### Provenance inference (`path_author_map`, `path_keyword_map`,
`_infer_dynasty`, `_infer_dynasty_from_content`) -/

/-- `self.path_author_map` (insertion order preserved, as Python dicts do). -/
def path_author_map : List (String × String) :=
  [("caocao", "曹操"), ("nalanxingde", "纳兰性德"), ("shijing", "佚名"),
   ("sishuwujing/lunyu", "孔子")]

/-- `self.path_keyword_map`. -/
def path_keyword_map : List (String × String) :=
  [("tang", "唐代"), ("quan_tang_shi", "唐代"), ("song", "宋代"), ("yuan", "元代"),
   ("yuanqu", "元代"), ("ming", "明代"), ("qing", "清代"), ("wudai", "五代十国"),
   ("huajianji", "五代十国"), ("nantang", "五代十国"), ("jin", "两晋"),
   ("nanbeichao", "南北朝"), ("sui", "隋代"), ("caocao", "两汉"), ("jianan", "两汉"),
   ("shijing", "先秦"), ("chuci", "先秦"), ("sishuwujing", "先秦"), ("lunyu", "先秦")]

/-- The `classical_texts` literal inside `_infer_dynasty`. -/
def classical_texts : List (String × String) :=
  [("诗经", "先秦"), ("楚辞", "先秦"), ("论语", "先秦"), ("孟子", "先秦"),
   ("大学", "先秦"), ("中庸", "先秦"), ("四书五经", "先秦"), ("蒙学", "古代"),
   ("shijing", "先秦"), ("chuci", "先秦"), ("lunyu", "先秦"), ("mengzi", "先秦"),
   ("daxue", "先秦"), ("zhongyong", "先秦"), ("sishuwujing", "先秦"),
   ("mengxue", "古代")]

/-- Importer state that is either external (the OpenCC converter) or built
    by the pre-scan (`author_dynasty_map`, whose values were truncated to
    200 characters when the map was built, see line 127). -/
structure ImporterCtx where
  conv : String → String
  author_dynasty_map : String → Option String

/-- `_infer_dynasty_from_content` (lines 498-504). -/
def infer_dynasty_from_content (poem_data : Json) : String :=
  let dynasty := poem_data.getD "dynasty" .null
  if pyTruthy dynasty then pyStr dynasty else "未知"

/-- `_infer_dynasty` (lines 506-542): frequency-table lookup, then the
    `classical_texts` scan, then `path_keyword_map`, then `"未知"`. -/
def infer_dynasty (ctx : ImporterCtx) (author : String) (file_path : String) : String :=
  match ctx.author_dynasty_map author with
  | some d => d
  | none =>
    let fps := pyLower file_path
    match classical_texts.find? (fun p => strContains (pyLower fps) (pyLower p.1)) with
    | some p => p.2
    | none =>
      match path_keyword_map.find? (fun p => strContains fps p.1) with
      | some p => p.2
      | none => "未知"

/-! ### `process_poem_data` (lines 272-300)

The whole body runs in a `try`/`except` that returns `None` on any
exception; the two reachable raising operations are `author_str.strip()`
on a truthy non-string author value (`AttributeError`) and
`''.flatten(content_list)` on a non-joinable value (`TypeError`). -/

structure PoemRec where
  title : String
  author : String
  dynasty : String
  content : String
deriving DecidableEq, Repr

/-- `author_str` resolution (lines 279-287): `poem_data.get('author',
    fallback_author)`; a falsy value falls back to the path-keyword scan
    and then the literal `'佚名'`; a truthy non-string raises
    `AttributeError` at `author_str.strip()` (modelled as `none`). -/
def resolve_author_str (poem_data : Json) (file_path : String) (fallback_author : Json) :
    Option String :=
  let author_val := poem_data.getD "author" fallback_author
  if pyTruthy author_val then
    match author_val with
    | .str s => some s
    | _ => none
  else
    some (match path_author_map.find? (fun p => strContains (pyLower file_path) p.1) with
          | some p => p.2
          | none => "佚名")

def process_poem_data (ctx : ImporterCtx) (poem_data : Json) (file_path : String)
    (fallback_author : Json) : Option PoemRec :=
  -- title = conv(str(poem_data.get('title', '无题')).strip())[:500]
  let title := pyTrunc (ctx.conv (pyStrip (pyStr (poem_data.getD "title" (.str "无题"))))) 500
  let dynasty := pyTrunc (ctx.conv (pyStrip (pyStr (poem_data.getD "dynasty" (.str ""))))) 200
  -- content = conv(''.join(poem_data.get('paragraphs', [])))
  match resolve_author_str poem_data file_path fallback_author,
      (pyJoin (poem_data.getD "paragraphs" (.arr []))).map ctx.conv with
  | some s, some content =>
    let author := pyTrunc (ctx.conv (pyStrip s)) 200
    if content = "" then none
    else
      let dynasty := if dynasty = "" then infer_dynasty ctx author file_path else dynasty
      some { title := title, author := author, dynasty := dynasty, content := content }
  | _, _ => none

/-! ### `_extract_poems_from_data` (lines 134-270)

Translated into `Except String`: every raw subscript (`data['content']`,
`item['content']`, `data['paragraphs']`, `data['chapters']`,
`data['sections']`, `data['text']`, `data[field]`, `content_list[0]`,
`data['chapter']`, `data['title']`) goes through a throwing accessor, so
the "never raises" contract is a real theorem about the guards. -/

/-- Throwing `d[k]` (Python `KeyError` / `TypeError` on non-mapping). -/
def idxKey (d : Json) (k : String) : Except String Json :=
  match d.find k with
  | some v => .ok v
  | none => .error "KeyError"

/-- Throwing `xs[i]` (Python `IndexError`). -/
def idxAt (xs : List Json) (i : Nat) : Except String Json :=
  match xs[i]? with
  | some v => .ok v
  | none => .error "IndexError"

/-- Python `k in data and isinstance(data[k], list)` (short-circuit `and`
    guards the raw access). -/
def guardList (data : Json) (k : String) : Except String Bool :=
  if data.hasKey k then
    match idxKey data k with
    | .ok v => .ok v.isArr
    | .error e => .error e
  else .ok false

/-- One item of the `data['content']` loop (lines 153-164). -/
def contentItem (fallback : Json) (item : Json) : Except String (List Json) :=
  if item.isObj then do
    let g ← guardList item "content"
    if g then do
      let c ← idxKey item "content"
      pure [Json.obj
        [("title", item.getD "title" (.str "无题")),
         ("author", item.getD "author" (if pyTruthy fallback then fallback else .str "佚名")),
         ("dynasty", item.getD "dynasty" (.str (infer_dynasty_from_content item))),
         ("paragraphs", c)]]
    else pure [item]
  else pure []

/-- Run a per-item extractor over a list, extending the accumulated poem
    list in order (the Python `for` loops append as they go). -/
def mapCollect (f : Json → Except String (List Json)) : List Json → Except String (List Json)
  | [] => .ok []
  | x :: xs =>
    match f x with
    | .error e => .error e
    | .ok r =>
      match mapCollect f xs with
      | .error e => .error e
      | .ok rs => .ok (r ++ rs)

def contentBranch (fallback : Json) (items : List Json) : Except String (List Json) :=
  mapCollect (contentItem fallback) items

/-- The `'paragraphs'` branch (lines 167-180). -/
def paragraphsBranch (data fallback : Json) : Except String (List Json) :=
  if data.hasKey "chapter" then do
    let ps ← idxKey data "paragraphs"
    let chap ← idxKey data "chapter"
    match ps with
    | .arr paras =>
      pure (paras.map (fun paragraph => Json.obj
        [("title", chap),
         ("author", if pyTruthy fallback then fallback else .str "孔子"),
         ("dynasty", .str "先秦"),
         ("paragraphs", .arr [paragraph])]))
    | _ => pure []   -- unreachable: branch guard checked isinstance(list)
  else pure [data]

/-- One item of the `data['chapters']` loop (lines 184-202).  `dataDyn` is
    `data.get('dynasty')`. -/
def chapterItem (dataDyn fallback : Json) (chapter : Json) : Except String (List Json) :=
  if chapter.isObj then do
    let g ← guardList chapter "paragraphs"
    if g then do
      let ps ← idxKey chapter "paragraphs"
      match ps with
      | .arr paras =>
        pure (paras.map (fun para => Json.obj
          [("title",
            let t := chapter.getD "title" .null
            if pyTruthy t then t else chapter.getD "chapter" (.str "未知篇章")),
           ("author", chapter.getD "author" fallback),
           ("dynasty", chapter.getD "dynasty" dataDyn),
           ("paragraphs", match para with | .str _ => Json.arr [para] | _ => para)]))
      | _ => pure []   -- unreachable: guard checked isinstance(list)
    else
      pure [Json.obj
        [("title", chapter.getD "title" (.str "未知篇章")),
         ("author", chapter.getD "author" fallback),
         ("dynasty", chapter.getD "dynasty" dataDyn),
         ("paragraphs", chapter.getD "paragraphs" (.arr []))]]
  else pure []

/-- One item of the `data['sections']` loop (lines 206-213). -/
def sectionItem (data fallback : Json) (sec : Json) : List Json :=
  if sec.isObj then
    [Json.obj
      [("title", sec.getD "title" (data.getD "title" (.str "无题"))),
       ("author", sec.getD "author" fallback),
       ("dynasty", sec.getD "dynasty" (data.getD "dynasty" .null)),
       ("paragraphs", sec.getD "paragraphs" (sec.getD "content" (.arr [])))]]
  else []

/-- One item of the `data['text']` loop (lines 221-228). -/
def textItem (data fallback : Json) (text_item : Json) : List Json :=
  if text_item.isObj then
    [Json.obj
      [("title", text_item.getD "title" (data.getD "title" (.str "无题"))),
       ("author", text_item.getD "author" fallback),
       ("dynasty", text_item.getD "dynasty" (data.getD "dynasty" (.str "未知"))),
       ("paragraphs", text_item.getD "paragraphs" (text_item.getD "content" (.arr [])))]]
  else []

/-- The `elif` chain of the `isinstance(data, dict)` branch (lines 151-228). -/
def dictBranches (data fallback : Json) : Except String (List Json) := do
  let g1 ← guardList data "content"
  if g1 then do
    let c ← idxKey data "content"
    match c with
    | .arr items => contentBranch fallback items
    | _ => pure []
  else do
    let g2 ← guardList data "paragraphs"
    if g2 then paragraphsBranch data fallback
    else do
      let g3 ← guardList data "chapters"
      if g3 then do
        let cs ← idxKey data "chapters"
        match cs with
        | .arr chapters => mapCollect (chapterItem (data.getD "dynasty" .null) fallback) chapters
        | _ => pure []
      else do
        let g4 ← guardList data "sections"
        if g4 then do
          let ss ← idxKey data "sections"
          match ss with
          | .arr sections => pure ((sections.map (sectionItem data fallback)).flatten)
          | _ => pure []
        else if data.hasKey "title" && (data.hasKey "paragraphs" || data.hasKey "content") then
          pure [data]
        else do
          let g5 ← guardList data "text"
          if g5 then do
            let ts ← idxKey data "text"
            match ts with
            | .arr text_items => pure ((text_items.map (textItem data fallback)).flatten)
            | _ => pure []
          else pure []

/-- The `possible_fields` fallback block (lines 231-245): first listed
    field that is present with a list value wins (`break` afterwards). -/
def possibleFieldsGo (data fallback : Json) : List String → Except String (List Json)
  | [] => pure []
  | f :: rest => do
    let g ← guardList data f
    if g then do
      let cl ← idxKey data f
      match cl with
      | .arr content_list =>
        if content_list.isEmpty then pure []
        else do
          let first ← idxAt content_list 0
          match first with
          | .str _ =>
            pure [Json.obj
              [("title", data.getD "title" (.str "无题")),
               ("author", data.getD "author" fallback),
               ("dynasty", data.getD "dynasty" (.str "未知")),
               ("paragraphs", .arr content_list)]]
          | _ => pure []
      | _ => pure []   -- unreachable: guard checked isinstance(list)
    else possibleFieldsGo data fallback rest

def possibleFieldsBlock (data fallback : Json) : Except String (List Json) :=
  possibleFieldsGo data fallback ["content", "paragraphs", "text", "verses", "lines"]

/-- The classical-keyword sniffing block (lines 248-268), driven by
    substring tests on `str(data).lower()`. -/
def keywordBlock (data : Json) : Except String (List Json) := do
  let s := pyLower (pyStr data)
  if ["论语", "大学", "中庸", "孟子"].any (fun kw => strContains s kw) then do
    let g ← guardList data "paragraphs"
    if g then do
      let ps ← idxKey data "paragraphs"
      let title := data.getD "chapter" (data.getD "title" (.str "经典篇章"))
      pure [Json.obj
        [("title", title), ("author", .str "孔子"), ("dynasty", .str "先秦"),
         ("paragraphs", ps)]]
    else pure []
  else if ["诗经", "楚辞"].any (fun kw => strContains s kw) then
    if data.hasKey "title" then do
      let t ← idxKey data "title"
      pure [Json.obj
        [("title", t),
         ("author", data.getD "author" (.str "佚名")),
         ("dynasty", data.getD "dynasty" (.str "先秦")),
         ("paragraphs", data.getD "paragraphs" (data.getD "content" (.arr [])))]]
    else pure []
  else pure []

/-- `_extract_poems_from_data(data)`: returns the raw poem records and the
    file-level fallback author value (Python `None` is `Json.null`). -/
def extract_poems_from_data (data : Json) : Except String (List Json × Json) :=
  match data with
  | .arr items => pure (items.filter Json.isObj, Json.null)
  | _ =>
    if data.isObj then do
      let fallback := data.getD "author" .null
      let poems ← dictBranches data fallback
      let poems ← if poems.isEmpty then possibleFieldsBlock data fallback else pure poems
      let poems ← if poems.isEmpty then keywordBlock data else pure poems
      pure (poems, fallback)
    else
      pure ([], Json.null)

/-! ### Embedding client (`get_batch_embeddings`, lines 302-346)

The network is an oracle `outcomes : Nat → ApiOutcome` giving the result
of each attempt of the retry loop (`max_retries = 3`).  A 2xx response
whose JSON has a `data` key yields `ok` with the embeddings already sorted
by their `index` field; a 2xx response without `data` is `noData`;
`raise_for_status` errors are `httpErr status`; timeouts, connection
errors and malformed JSON bodies are `exn`. -/

/-- An embedding vector (float contents modelled as rationals). -/
abbrev Emb := List Rat

inductive ApiOutcome where
  | ok (embs : List Emb)
  | noData
  | httpErr (status : Nat)
  | exn

/-- The `for attempt in range(self.max_retries)` loop: `ok` breaks with a
    result; `httpErr 400` breaks with none (`if e.response.status_code ==
    400: break`); everything else falls through to the next attempt.
    Returns the result and the number of attempts made. -/
def retry_loop (outcomes : Nat → ApiOutcome) : Nat → Nat → Option (List Emb) × Nat
  | 0, attempt => (none, attempt)
  | fuel + 1, attempt =>
    match outcomes attempt with
    | .ok embs => (some embs, attempt + 1)
    | .httpErr status =>
      if status = 400 then (none, attempt + 1)
      else retry_loop outcomes fuel (attempt + 1)
    | _ => retry_loop outcomes fuel (attempt + 1)

def retryEmbeddings (outcomes : Nat → ApiOutcome) : Option (List Emb) × Nat :=
  retry_loop outcomes 3 0

/-- Python `text.isspace()`. -/
def pyIsSpace (s : String) : Bool :=
  !s.isEmpty && s.data.all Char.isWhitespace

/-- The comprehension filter `text and not text.isspace()`. -/
def keepText (s : String) : Bool :=
  !s.isEmpty && !pyIsSpace s

/-- `[i for i, text in enumerate(texts) if text and not text.isspace()]`. -/
def validIndicesFrom : Nat → List String → List Nat
  | _, [] => []
  | i, t :: ts =>
    if keepText t then i :: validIndicesFrom (i + 1) ts
    else validIndicesFrom (i + 1) ts

/-- The rehydration loop `for i, embedding in enumerate(api_results):
    results[valid_indices[i]] = embedding`; raises `IndexError` when the
    API returned more embeddings than texts were sent. -/
def fillResults : List (Option Emb) → List Nat → List Emb → Except String (List (Option Emb))
  | res, _, [] => .ok res
  | _, [], _ :: _ => .error "IndexError"
  | res, i :: is2, e :: es => fillResults (res.set i (some e)) is2 es

def get_batch_embeddings (outcomes : Nat → ApiOutcome) (texts : List String) :
    Except String (List (Option Emb)) :=
  if texts.isEmpty then .ok []
  else
    let valid_texts := texts.filter keepText
    if valid_texts.isEmpty then .ok (List.replicate texts.length none)
    else
      match (retryEmbeddings outcomes).1 with
      | some (e :: es) =>   -- `if api_results:` — truthy only when non-None and nonempty
        fillResults (List.replicate texts.length none) (validIndicesFrom 0 texts) (e :: es)
      | _ => .ok (List.replicate texts.length none)

/-! ### Concurrent orchestrator (lines 397-409)

`future_to_index` keys each submitted sub-batch future by its submission
index; `as_completed` yields the futures in an arbitrary completion order
`order`; each result is written into `results_in_order` at its submission
index; finally the slots are concatenated, skipping falsy (`None`/empty)
entries. -/

def assemble (n : Nat) (compute : Nat → List (Option Emb)) (order : List Nat) :
    List (Option (List (Option Emb))) :=
  order.foldl (fun acc i => acc.set i (some (compute i))) (List.replicate n none)

def mergeResults (slots : List (Option (List (Option Emb)))) : List (Option Emb) :=
  slots.foldl
    (fun acc r =>
      match r with
      | some rb => if rb.isEmpty then acc else acc ++ rb
      | none => acc)
    []

/-- `[lst[i:i+size] for i in range(0, len(lst), size)]`; each step drops at
    least one element (size is the positive literal 10 at the call site),
    so `fuel = length` suffices. -/
def chunkListAux (size : Nat) : Nat → List String → List (List String)
  | 0, _ => []
  | _ + 1, [] => []
  | fuel + 1, l => l.take size :: chunkListAux size fuel (l.drop size)

def chunkList (size : Nat) (l : List String) : List (List String) :=
  chunkListAux size l.length l

/-! ### Database model

The store is modelled relationally: ids are 1-based row positions
(Postgres `SERIAL` starts at 1 — relevant because the code tests ids for
truthiness).  A transaction is a pair of database states: `committed` (what
is durable) and `pending` (the connection's uncommitted view);
`conn.commit()` publishes `pending`, `conn.rollback()` resets it. -/

structure DBState where
  dynasties : List String
  authors : List (String × Nat)                 -- (name, dynasty_id)
  poems : List (String × Option Nat × String)   -- (title, author_id, full_content)
  lines : List (Nat × String × Emb)             -- (poem_id, content, embedding)
deriving DecidableEq, Repr

def DBState.empty : DBState := ⟨[], [], [], []⟩

structure TxState where
  committed : DBState
  pending : DBState
deriving DecidableEq, Repr

/-- `INSERT INTO dynasties (name) VALUES … ON CONFLICT (name) DO NOTHING`. -/
def insertDynasties (names : List String) (db : DBState) : DBState :=
  { db with dynasties :=
      names.foldl (fun ds n => if ds.contains n then ds else ds ++ [n]) db.dynasties }

/-- `INSERT INTO authors … ON CONFLICT ON CONSTRAINT uq_author_dynasty DO NOTHING`. -/
def insertAuthors (pairs : List (String × Nat)) (db : DBState) : DBState :=
  { db with authors :=
      pairs.foldl (fun as p => if as.contains p then as else as ++ [p]) db.authors }

/-- 1-based position of the first occurrence of `x`. -/
def idx1 : List String → String → Nat → Option Nat
  | [], _, _ => none
  | y :: ys, x, i => if y = x then some i else idx1 ys x (i + 1)

/-- `SELECT id FROM dynasties WHERE name = …`. -/
def dynastyId (dyns : List String) (name : String) : Option Nat :=
  idx1 dyns name 1

/-- `SELECT a.id FROM authors a JOIN dynasties d ON a.dynasty_id = d.id
    WHERE a.name = name AND d.name = dname` (unique by constraint). -/
def authorIdGo (dyns : List String) : List (String × Nat) → String → String → Nat → Option Nat
  | [], _, _, _ => none
  | (an, did) :: rest, name, dname, i =>
    if an = name && dyns[did - 1]? = some dname then some i
    else authorIdGo dyns rest name dname (i + 1)

def authorId (db : DBState) (name dname : String) : Option Nat :=
  authorIdGo db.dynasties db.authors name dname 1

/-! ### Transactional loader (`process_and_insert_batch`, lines 348-424) -/

/-- Per-batch environment: the embedding-service oracle per sub-batch, the
    completion order of the worker futures, and which SQL statements the
    database makes fail (external nondeterminism). -/
structure BatchEnv where
  outcomes : Nat → Nat → ApiOutcome
  order : List Nat
  dbErr : Nat → Bool

/-- Submit the sub-batches to the pool in submission order; a failed
    `get_batch_embeddings` re-raises from `future.result()` inside the
    `as_completed` loop. -/
def embedChunksGo (env : BatchEnv) : Nat → List (List String) →
    Except String (List (List (Option Emb)))
  | _, [] => .ok []
  | i, c :: cs =>
    match get_batch_embeddings (env.outcomes i) c with
    | .error e => .error e
    | .ok r =>
      match embedChunksGo env (i + 1) cs with
      | .error e => .error e
      | .ok rs => .ok (r :: rs)

def embedChunks (env : BatchEnv) (chunks : List (List String)) :
    Except String (List (List (Option Emb))) :=
  embedChunksGo env 0 chunks

/-- The `emb_idx` walk (lines 411-416): for poem `pid` take `count`
    sentences starting at `j`; keep a line only when the guard
    `emb_idx < len(all_embeddings) and all_embeddings[emb_idx]` holds. -/
def clInner (sentences : List String) (embs : List (Option Emb)) (pid : Nat) :
    Nat → Nat → List (Nat × String × Emb)
  | 0, _ => []
  | c + 1, j =>
    (if j < embs.length then
      match embs.getD j none with
      | some e => if e.isEmpty then [] else [(pid, sentences.getD j "", e)]
      | none => []
    else []) ++ clInner sentences embs pid c (j + 1)

def clGo (sentences : List String) (embs : List (Option Emb)) :
    List (Nat × Nat) → Nat → List (Nat × String × Emb)
  | [], _ => []
  | (pid, cnt) :: rest, j => clInner sentences embs pid cnt j ++ clGo sentences embs rest (j + cnt)

def collectLines (poem_ids : List Nat) (counts : List Nat) (sentences : List String)
    (embs : List (Option Emb)) : List (Nat × String × Emb) :=
  clGo sentences embs (poem_ids.zip counts) 0

/-- The body of the `try` in `process_and_insert_batch`, applied to the
    transaction's pending state.  `env.dbErr k` makes the `k`-th SQL
    statement raise.  `list(set(...))` is modelled as first-occurrence
    deduplication (Python set order is unspecified; only row ids depend on
    it). -/
def process_batch_inner (env : BatchEnv) (batch : List PoemRec) (db : DBState) :
    Except String DBState :=
  let dynasties := (batch.map (fun p => p.dynasty)).eraseDups
  let authorsKeys := (batch.map (fun p => (p.author, p.dynasty))).eraseDups
  -- dynasty upsert + readback (executed only when the batch has dynasties)
  if !dynasties.isEmpty && (env.dbErr 0 || env.dbErr 1) then .error "DBError" else
  let db1 := if dynasties.isEmpty then db else insertDynasties dynasties db
  let dynasty_map : String → Option Nat := fun n =>
    if dynasties.contains n then dynastyId db1.dynasties n else none
  -- authors_to_insert keeps pairs whose dynasty id is truthy (ids are ≥ 1)
  let authors_to_insert := authorsKeys.filterMap (fun p =>
    match dynasty_map p.2 with
    | some did => if did = 0 then none else some (p.1, did)
    | none => none)
  if !authors_to_insert.isEmpty && env.dbErr 2 then .error "DBError" else
  let db2 := if authors_to_insert.isEmpty then db1 else insertAuthors authors_to_insert db1
  if !authorsKeys.isEmpty && env.dbErr 3 then .error "DBError" else
  let author_map : String × String → Option Nat := fun p =>
    if authorsKeys.isEmpty then none
    else if authorsKeys.contains p then authorId db2 p.1 p.2 else none
  let poems_to_insert := batch.map (fun p => (p.title, author_map (p.author, p.dynasty), p.content))
  -- CREATE TEMP TABLE / INSERT temp / INSERT poems … RETURNING id
  if env.dbErr 4 || env.dbErr 5 || env.dbErr 6 then .error "DBError" else
  let firstId := db2.poems.length + 1
  let db3 : DBState := { db2 with poems := db2.poems ++ poems_to_insert }
  let poem_ids := (List.range batch.length).map (fun i => firstId + i)
  let pieces := batch.map (fun p => split_sentences p.content)
  let all_sentences := pieces.flatten
  let counts := pieces.map List.length
  if all_sentences.isEmpty then .ok db3 else
  let chunks := chunkList 10 all_sentences
  match embedChunks env chunks with
  | .error e => .error e
  | .ok results =>
    let all_embeddings :=
      mergeResults (assemble chunks.length (fun i => results.getD i []) env.order)
    let lines_to_insert := collectLines poem_ids counts all_sentences all_embeddings
    if lines_to_insert.isEmpty then .ok db3 else
    if env.dbErr 7 then .error "DBError" else
    .ok { db3 with lines := db3.lines ++ lines_to_insert }

/-- `process_and_insert_batch`: empty batches return immediately; otherwise
    the `try` body runs against the pending state and is either committed,
    or — in the `except Exception` handler — logged and rolled back.  The
    handler does not re-raise, so the function itself never propagates the
    failure. -/
def process_and_insert_batch (env : BatchEnv) (batch : List PoemRec) (tx : TxState) :
    Except String TxState :=
  if batch.isEmpty then .ok tx
  else
    match process_batch_inner env batch tx.pending with
    | .ok db => .ok ⟨db, db⟩                                   -- conn.commit()
    | .error _ => .ok ⟨tx.committed, tx.committed⟩             -- log + conn.rollback()

/-! ### `run_import` (lines 426-468) and checkpointing (lines 489-496)

A source file is its path plus the outcome of `open` + `json.load`
(external I/O).  `RunState` carries the shared connection's transaction
state and the lines appended to `processed_files.log` during this run. -/

structure SourceFile where
  id : String
  parsed : Except String Json

structure RunState where
  tx : TxState
  log : List String
deriving Repr

/-- The accumulation loop over one file's raw poem records (lines 449-457):
    skip non-dict records, clean each record, flush a batch at
    `db_batch_size = 100`. -/
def import_poems_loop (ctx : ImporterCtx) (benv : Nat → BatchEnv) (fp : String) (fb : Json) :
    List Json → List PoemRec → Nat → TxState → Except String (List PoemRec × Nat × TxState)
  | [], batch, bi, tx => .ok (batch, bi, tx)
  | pd :: rest, batch, bi, tx =>
    if pd.isObj then
      let batch' :=
        match process_poem_data ctx pd fp fb with
        | some r => batch ++ [r]
        | none => batch
      if 100 ≤ batch'.length then
        match process_and_insert_batch (benv bi) batch' tx with
        | .ok tx' => import_poems_loop ctx benv fp fb rest [] (bi + 1) tx'
        | .error e => .error e
      else import_poems_loop ctx benv fp fb rest batch' bi tx
    else import_poems_loop ctx benv fp fb rest batch bi tx

/-- Per-file ingestion after extraction: the loop plus the trailing
    `if poem_batch:` flush (lines 459-460). -/
def ingest_file (ctx : ImporterCtx) (benv : Nat → BatchEnv) (fp : String) (fb : Json)
    (poems : List Json) (tx : TxState) : Except String TxState :=
  match import_poems_loop ctx benv fp fb poems [] 0 tx with
  | .error e => .error e
  | .ok (batch, bi, tx') =>
    if batch.isEmpty then .ok tx'
    else process_and_insert_batch (benv bi) batch tx'

/-- One iteration of the file loop (lines 438-465): parse, extract, skip
    empty files (checkpointing them), ingest, checkpoint; the per-file
    `except Exception` handler logs, rolls back, and does not checkpoint. -/
def run_import_file (ctx : ImporterCtx) (benv : Nat → BatchEnv) (f : SourceFile)
    (st : RunState) : RunState :=
  match f.parsed with
  | .error _ => ⟨⟨st.tx.committed, st.tx.committed⟩, st.log⟩
  | .ok data =>
    match extract_poems_from_data data with
    | .error _ => ⟨⟨st.tx.committed, st.tx.committed⟩, st.log⟩   -- unreachable: never errors
    | .ok (poems, fb) =>
      if poems.isEmpty then ⟨st.tx, st.log ++ [f.id]⟩            -- mark_file_as_processed
      else
        match ingest_file ctx benv f.id fb poems st.tx with
        | .ok tx' => ⟨tx', st.log ++ [f.id]⟩                     -- mark_file_as_processed
        | .error _ => ⟨⟨st.tx.committed, st.tx.committed⟩, st.log⟩ -- unreachable: never errors

def run_import_loop (ctx : ImporterCtx) (envs : Nat → Nat → BatchEnv) :
    List SourceFile → Nat → RunState → RunState
  | [], _, st => st
  | f :: rest, i, st => run_import_loop ctx envs rest (i + 1) (run_import_file ctx (envs i) f st)

/-- `run_import`: drop files already in the checkpoint log, then process
    the remainder in order on one connection. -/
def run_import (ctx : ImporterCtx) (envs : Nat → Nat → BatchEnv) (files : List SourceFile)
    (processed : List String) (tx0 : TxState) : RunState :=
  let files_to_process := files.filter (fun f => !processed.contains f.id)
  run_import_loop ctx envs files_to_process 0 ⟨tx0, []⟩

/-! ### Semantic search (`fastapi_app/main.py`, `semantic_search`,
lines 348-431)

The SQL joins each poem to its non-null-embedding lines, takes per poem
the minimum cosine distance to the query vector, orders ascending by that
distance, applies `LIMIT`/`OFFSET`, and presents
`1.0 - float(row['distance']) if row['distance'] else 0.0`, i.e. a falsy
(zero) distance yields score 0.  Cosine distance itself is the pgvector
`<=>` operator, modelled as an abstract `dist` function into `Rat` (the
`round(·, 4)` float presentation step is not modelled). -/

structure DocRow where
  id : Nat
  title : String
  author : String
  dynasty : String
  full_content : String
  lineEmbs : List Emb
deriving DecidableEq, Repr

/-- `MIN(l.embedding <=> query)` over the document's lines. -/
def minDist (dist : Emb → Emb → Rat) (q : Emb) : List Emb → Rat
  | [] => 0          -- unreachable: the JOIN only yields documents with lines
  | [e] => dist q e
  | e :: e2 :: es => min (dist q e) (minDist dist q (e2 :: es))

/-- Insertion sort ascending by distance (`ORDER BY distance ASC`). -/
def insertAscBy (x : DocRow × Rat) : List (DocRow × Rat) → List (DocRow × Rat)
  | [] => [x]
  | y :: ys => if x.2 ≤ y.2 then x :: y :: ys else y :: insertAscBy x ys

def sortAscBy : List (DocRow × Rat) → List (DocRow × Rat)
  | [] => []
  | x :: xs => insertAscBy x (sortAscBy xs)

/-- The ranked candidate page: per-document minimum distance, ascending
    order, then `LIMIT limit OFFSET offset`. -/
def searchRanked (dist : Emb → Emb → Rat) (q : Emb) (rows : List DocRow)
    (limit offset : Nat) : List (DocRow × Rat) :=
  (((rows.filter (fun r => !r.lineEmbs.isEmpty)).map
      (fun r => (r, minDist dist q r.lineEmbs))
    |> sortAscBy).drop offset).take limit

/-- `similarity_score = 1.0 - float(row['distance']) if row['distance']
    else 0.0` — the Python conditional tests the *truthiness* of the
    distance, so a distance of exactly 0 takes the `else` branch. -/
def presentScore (d : Rat) : Rat :=
  if d = 0 then 0 else 1 - d

/-- The endpoint's result page: each ranked row with its presented score. -/
def semantic_search (dist : Emb → Emb → Rat) (q : Emb) (rows : List DocRow)
    (limit offset : Nat) : List (DocRow × Rat) :=
  (searchRanked dist q rows limit offset).map (fun p => (p.1, presentScore p.2))

/-! ## Proof infrastructure -/

theorem pure_ok {α : Type} (a : α) : (pure a : Except String α) = Except.ok a := rfl

theorem ok_bind {α β : Type} (a : α) (f : α → Except String β) :
    (Except.ok a >>= f : Except String β) = f a := rfl

def exOk {α : Type} : Except String α → Bool
  | .ok _ => true
  | .error _ => false

theorem exists_ok_of_exOk {α : Type} {x : Except String α} (h : exOk x = true) :
    ∃ a, x = Except.ok a := by
  cases x with
  | ok a => exact ⟨a, rfl⟩
  | error e => simp [exOk] at h

theorem idxKey_isOk_of_hasKey {d : Json} {k : String} (h : d.hasKey k = true) :
    ∃ v, idxKey d k = Except.ok v := by
  unfold Json.hasKey at h
  cases hf : d.find k with
  | none => rw [hf] at h; simp at h
  | some v => exact ⟨v, by simp [idxKey, hf]⟩

theorem guardList_isOk (d : Json) (k : String) : ∃ b, guardList d k = Except.ok b := by
  unfold guardList idxKey Json.hasKey
  cases hf : d.find k with
  | none => exact ⟨false, by simp [hf]⟩
  | some v => exact ⟨v.isArr, by simp [hf]⟩

theorem guardList_true {d : Json} {k : String} (h : guardList d k = Except.ok true) :
    ∃ xs, idxKey d k = Except.ok (Json.arr xs) := by
  unfold guardList idxKey Json.hasKey at *
  cases hf : d.find k with
  | none => rw [hf] at h; simp at h
  | some v =>
    rw [hf] at h
    simp at h
    cases v <;> simp [Json.isArr] at h ⊢

theorem mapCollect_isOk {f : Json → Except String (List Json)}
    (hf : ∀ a, ∃ r, f a = Except.ok r) :
    ∀ l : List Json, ∃ rs, mapCollect f l = Except.ok rs := by
  intro l
  induction l with
  | nil => exact ⟨[], rfl⟩
  | cons x xs ih =>
    obtain ⟨r, hr⟩ := hf x
    obtain ⟨rs, hrs⟩ := ih
    exact ⟨r ++ rs, by simp [mapCollect, hr, hrs]⟩

theorem contentItem_isOk (fallback item : Json) :
    ∃ r, contentItem fallback item = Except.ok r := by
  apply exists_ok_of_exOk
  unfold contentItem
  cases hobj : item.isObj
  · simp [pure_ok, exOk]
  · obtain ⟨b, hb⟩ := guardList_isOk item "content"
    cases b
    · simp [hb, ok_bind, pure_ok, exOk]
    · obtain ⟨xs, hx⟩ := guardList_true hb
      simp [hb, hx, ok_bind, pure_ok, exOk]

theorem paragraphsBranch_isOk {data : Json} (fallback : Json)
    (h : guardList data "paragraphs" = Except.ok true) :
    ∃ r, paragraphsBranch data fallback = Except.ok r := by
  apply exists_ok_of_exOk
  unfold paragraphsBranch
  cases hc : data.hasKey "chapter"
  · simp [hc, pure_ok, exOk]
  · obtain ⟨xs, hx⟩ := guardList_true h
    obtain ⟨chap, hchap⟩ := idxKey_isOk_of_hasKey hc
    simp [hc, hx, hchap, ok_bind, pure_ok, exOk]

theorem chapterItem_isOk (dataDyn fallback chapter : Json) :
    ∃ r, chapterItem dataDyn fallback chapter = Except.ok r := by
  apply exists_ok_of_exOk
  unfold chapterItem
  cases hobj : chapter.isObj
  · simp [pure_ok, exOk]
  · obtain ⟨b, hb⟩ := guardList_isOk chapter "paragraphs"
    cases b
    · simp [hb, ok_bind, pure_ok, exOk]
    · obtain ⟨xs, hx⟩ := guardList_true hb
      simp [hb, hx, ok_bind, pure_ok, exOk]

theorem dictBranches_isOk (data fallback : Json) :
    ∃ r, dictBranches data fallback = Except.ok r := by
  apply exists_ok_of_exOk
  unfold dictBranches
  obtain ⟨b1, h1⟩ := guardList_isOk data "content"
  cases b1
  · obtain ⟨b2, h2⟩ := guardList_isOk data "paragraphs"
    cases b2
    · obtain ⟨b3, h3⟩ := guardList_isOk data "chapters"
      cases b3
      · obtain ⟨b4, h4⟩ := guardList_isOk data "sections"
        cases b4
        · cases h5 : (data.hasKey "title" && (data.hasKey "paragraphs" || data.hasKey "content"))
          · obtain ⟨b6, h6⟩ := guardList_isOk data "text"
            cases b6
            · simp [h1, h2, h3, h4, h5, h6, ok_bind, pure_ok, exOk]
            · obtain ⟨xs, hx⟩ := guardList_true h6
              simp [h1, h2, h3, h4, h5, h6, hx, ok_bind, pure_ok, exOk]
          · simp [h1, h2, h3, h4, h5, ok_bind, pure_ok, exOk]
        · obtain ⟨xs, hx⟩ := guardList_true h4
          simp [h1, h2, h3, h4, hx, ok_bind, pure_ok, exOk]
      · obtain ⟨xs, hx⟩ := guardList_true h3
        obtain ⟨rs, hrs⟩ :=
          mapCollect_isOk (chapterItem_isOk (data.getD "dynasty" .null) fallback) xs
        simp [h1, h2, h3, hx, hrs, ok_bind, pure_ok, exOk]
    · obtain ⟨r, hr⟩ := paragraphsBranch_isOk fallback h2
      simp [h1, h2, hr, ok_bind, pure_ok, exOk]
  · obtain ⟨xs, hx⟩ := guardList_true h1
    obtain ⟨rs, hrs⟩ := mapCollect_isOk (contentItem_isOk fallback) xs
    simp [h1, hx, contentBranch, hrs, ok_bind, pure_ok, exOk]

theorem possibleFieldsGo_isOk (data fallback : Json) :
    ∀ fields, ∃ r, possibleFieldsGo data fallback fields = Except.ok r := by
  intro fields
  induction fields with
  | nil => exact ⟨[], rfl⟩
  | cons f rest ih =>
    apply exists_ok_of_exOk
    obtain ⟨b, hb⟩ := guardList_isOk data f
    cases b
    · obtain ⟨r, hr⟩ := ih
      simp [possibleFieldsGo, hb, hr, ok_bind, pure_ok, exOk]
    · obtain ⟨xs, hx⟩ := guardList_true hb
      cases hxs : xs with
      | nil => simp [possibleFieldsGo, hb, hx, hxs, ok_bind, pure_ok, exOk]
      | cons x0 xrest =>
        have hat : idxAt xs 0 = Except.ok x0 := by simp [idxAt, hxs]
        subst hxs
        cases x0 <;> simp [possibleFieldsGo, hb, hx, hat, ok_bind, pure_ok, exOk]

theorem keywordBlock_isOk (data : Json) : ∃ r, keywordBlock data = Except.ok r := by
  apply exists_ok_of_exOk
  unfold keywordBlock
  cases hkw1 : (["论语", "大学", "中庸", "孟子"].any
      (fun kw => strContains (pyLower (pyStr data)) kw))
  · cases hkw2 : (["诗经", "楚辞"].any (fun kw => strContains (pyLower (pyStr data)) kw))
    · simp [hkw1, hkw2, ok_bind, pure_ok, exOk]
    · cases ht : data.hasKey "title"
      · simp [hkw1, hkw2, ht, ok_bind, pure_ok, exOk]
      · obtain ⟨t, htt⟩ := idxKey_isOk_of_hasKey ht
        simp [hkw1, hkw2, ht, htt, ok_bind, pure_ok, exOk]
  · obtain ⟨b, hb⟩ := guardList_isOk data "paragraphs"
    cases b
    · simp [hkw1, hb, ok_bind, pure_ok, exOk]
    · obtain ⟨xs, hx⟩ := guardList_true hb
      simp [hkw1, hb, hx, ok_bind, pure_ok, exOk]

/-- The adapter never raises: shared helper behind the claim C4 theorem. -/
theorem extract_poems_isOk (data : Json) :
    ∃ r, extract_poems_from_data data = Except.ok r := by
  cases data with
  | arr items => exact ⟨_, rfl⟩
  | obj kvs =>
    apply exists_ok_of_exOk
    unfold extract_poems_from_data
    obtain ⟨ps, hps⟩ := dictBranches_isOk (Json.obj kvs) ((Json.obj kvs).getD "author" .null)
    obtain ⟨ps2, hps2⟩ :=
      possibleFieldsGo_isOk (Json.obj kvs) ((Json.obj kvs).getD "author" .null)
        ["content", "paragraphs", "text", "verses", "lines"]
    obtain ⟨ps3, hps3⟩ := keywordBlock_isOk (Json.obj kvs)
    cases he : ps.isEmpty
    · simp [Json.isObj, hps, he, ok_bind, pure_ok, exOk]
    · cases he2 : ps2.isEmpty
      · simp [Json.isObj, hps, he, possibleFieldsBlock, hps2, he2, ok_bind, pure_ok, exOk]
      · simp [Json.isObj, hps, he, possibleFieldsBlock, hps2, he2, hps3, ok_bind, pure_ok, exOk]
  | null => exact ⟨_, rfl⟩
  | bool b => exact ⟨_, rfl⟩
  | num n => exact ⟨_, rfl⟩
  | str s => exact ⟨_, rfl⟩

/-! ## The loader and file loop never propagate batch failures -/

theorem process_and_insert_batch_isOk (env : BatchEnv) (batch : List PoemRec) (tx : TxState) :
    ∃ t, process_and_insert_batch env batch tx = Except.ok t := by
  apply exists_ok_of_exOk
  unfold process_and_insert_batch
  cases hb : batch.isEmpty
  · cases hi : process_batch_inner env batch tx.pending <;> simp [hb, hi, exOk]
  · simp [hb, exOk]

theorem import_poems_loop_isOk (ctx : ImporterCtx) (benv : Nat → BatchEnv) (fp : String)
    (fb : Json) :
    ∀ (poems : List Json) (batch : List PoemRec) (bi : Nat) (tx : TxState),
      ∃ r, import_poems_loop ctx benv fp fb poems batch bi tx = Except.ok r := by
  intro poems
  induction poems with
  | nil => intro batch bi tx; exact ⟨_, rfl⟩
  | cons pd rest ih =>
    intro batch bi tx
    unfold import_poems_loop
    cases ho : pd.isObj
    · simp only [ho, Bool.false_eq_true, if_false]
      exact ih batch bi tx
    · simp only [ho, if_true]
      cases hp : process_poem_data ctx pd fp fb with
      | none =>
        simp only [hp]
        by_cases hq : 100 ≤ batch.length
        · obtain ⟨t1, ht1⟩ := process_and_insert_batch_isOk (benv bi) batch tx
          rw [if_pos hq, ht1]
          exact ih [] (bi + 1) t1
        · rw [if_neg hq]
          exact ih batch bi tx
      | some r =>
        simp only [hp]
        by_cases hq : 100 ≤ (batch ++ [r]).length
        · obtain ⟨t1, ht1⟩ := process_and_insert_batch_isOk (benv bi) (batch ++ [r]) tx
          rw [if_pos hq, ht1]
          exact ih [] (bi + 1) t1
        · rw [if_neg hq]
          exact ih (batch ++ [r]) bi tx

theorem ingest_file_isOk (ctx : ImporterCtx) (benv : Nat → BatchEnv) (fp : String) (fb : Json)
    (poems : List Json) (tx : TxState) :
    ∃ t, ingest_file ctx benv fp fb poems tx = Except.ok t := by
  unfold ingest_file
  obtain ⟨⟨batch, bi, tx'⟩, hl⟩ := import_poems_loop_isOk ctx benv fp fb poems [] 0 tx
  rw [hl]
  cases hb : batch.isEmpty
  · simp only [hb, Bool.false_eq_true, if_false]
    exact process_and_insert_batch_isOk (benv bi) batch tx'
  · exact ⟨tx', by simp [hb]⟩

/-- A file is checkpointed exactly when its parse phase succeeded; batch
    failures are swallowed inside `process_and_insert_batch` and do not
    prevent checkpointing. -/
theorem run_import_file_log (ctx : ImporterCtx) (benv : Nat → BatchEnv) (f : SourceFile)
    (st : RunState) :
    (run_import_file ctx benv f st).log =
      if exOk f.parsed then st.log ++ [f.id] else st.log := by
  unfold run_import_file
  cases hp : f.parsed with
  | error e => simp [hp, exOk]
  | ok data =>
    obtain ⟨⟨poems, fb⟩, he⟩ := extract_poems_isOk data
    cases hpe : poems.isEmpty
    · obtain ⟨tx', hi⟩ := ingest_file_isOk ctx benv f.id fb poems st.tx
      simp [he, hpe, hi, exOk]
    · simp [he, hpe, exOk]

theorem run_import_loop_log (ctx : ImporterCtx) (envs : Nat → Nat → BatchEnv) :
    ∀ (fs : List SourceFile) (i : Nat) (st : RunState),
      (run_import_loop ctx envs fs i st).log =
        st.log ++ (fs.filter (fun f => exOk f.parsed)).map (fun f => f.id) := by
  intro fs
  induction fs with
  | nil => intro i st; simp [run_import_loop]
  | cons f rest ih =>
    intro i st
    show (run_import_loop ctx envs rest (i + 1) (run_import_file ctx (envs i) f st)).log = _
    rw [ih, run_import_file_log]
    cases hok : exOk f.parsed <;> simp [hok, List.filter_cons]

/-! ## Concrete fixtures shared by the claim theorems -/

/-- Concrete importer context: OpenCC t2s instantiated as the identity (it
    is the identity on the simplified-script strings below) and an empty
    pre-scan author→dynasty table. -/
def ctxId : ImporterCtx := ⟨id, fun _ => none⟩

/-- The spec §8 scenario document
    `{title: "T", author: "A", dynasty: "D", paragraphs: ["一句。", "二句！"]}`. -/
def dataT : Json :=
  Json.obj [("title", .str "T"), ("author", .str "A"), ("dynasty", .str "D"),
            ("paragraphs", .arr [.str "一句。", .str "二句！"])]

/-- Like the scenario document but with two 4-character sentences, so that
    Line rows are actually produced on success. -/
def dataL : Json :=
  Json.obj [("title", .str "T"), ("author", .str "A"), ("dynasty", .str "D"),
            ("paragraphs", .arr [.str "甲乙丙丁。", .str "戊己庚辛！"])]

/-- The cleaned record `process_poem_data` produces from `dataL`. -/
def recL : PoemRec := ⟨"T", "A", "D", "甲乙丙丁。戊己庚辛！"⟩

/-- Environment in which the very first SQL statement of the batch raises. -/
def envDbFail : BatchEnv := ⟨fun _ _ => ApiOutcome.ok [], [], fun k => k == 0⟩

/-- Environment in which everything succeeds: the embedding service answers
    each sub-batch with one embedding per sentence. -/
def envOk2 : BatchEnv := ⟨fun _ _ => ApiOutcome.ok [[1], [2]], [0], fun _ => false⟩

def txEmpty : TxState := ⟨DBState.empty, DBState.empty⟩

/-! ## Claim C4 -/

/-- Claim C4: for every input document of any shape, the Document Schema
    Adapter (`_extract_poems_from_data`) never raises: it always returns a
    (possibly empty) list of poem records plus the file-level fallback
    author value. -/
theorem c4_adapter_never_raises (data : Json) :
    ∃ r, extract_poems_from_data data = Except.ok r :=
  extract_poems_isOk data

/-! ## Claim C1 -/

/-- Claim C1 is false on the code: in a run whose only file has its single
    batch fail at the very first SQL statement (so the batch rolls back and
    nothing is committed), the file identifier is nevertheless appended to
    the checkpoint log, because `process_and_insert_batch` swallows the
    failure before `run_import` reaches `mark_file_as_processed`. -/
theorem c1_counterexample :
    process_batch_inner envDbFail [recL] DBState.empty = Except.error "DBError" ∧
    run_import ctxId (fun _ _ => envDbFail) [⟨"g1", Except.ok dataL⟩] [] txEmpty =
      ⟨txEmpty, ["g1"]⟩ :=
  ⟨rfl, rfl⟩

/-- Claim C1 (amended): a file's identifier is appended to the checkpoint
    log exactly when its read/parse phase succeeds — including when some
    poem batch failed and was rolled back (batch failures are caught and
    logged inside the loader and never reach `run_import`); only an
    exception outside batch processing (e.g. a JSON parse error) prevents
    checkpointing, and a file yielding zero records is checkpointed. -/
theorem c1_checkpoint_iff_parse_ok (ctx : ImporterCtx) (envs : Nat → Nat → BatchEnv)
    (files : List SourceFile) (processed : List String) (tx0 : TxState) :
    (run_import ctx envs files processed tx0).log =
      ((files.filter (fun f => !processed.contains f.id)).filter
        (fun f => exOk f.parsed)).map (fun f => f.id) := by
  unfold run_import
  rw [run_import_loop_log]
  simp

/-! ## Claim C2 -/

/-- Claim C2 is false on the code in its propagation half: here is a batch
    whose processing fails (first SQL statement raises, witnessed by the
    `process_batch_inner` error) yet `process_and_insert_batch` returns
    normally — with the transaction rolled back — instead of propagating
    the failure to its caller. -/
theorem c2_counterexample :
    process_batch_inner envDbFail [recL] txEmpty.pending = Except.error "DBError" ∧
    process_and_insert_batch envDbFail [recL] txEmpty = Except.ok txEmpty :=
  ⟨rfl, rfl⟩

/-- Claim C2 (amended): if any step of processing a (nonempty) poem batch
    fails, the loader rolls the batch back atomically — the committed state
    is unchanged and the pending state is reset to it, so no poems, authors
    or lines from the batch persist — but it swallows the failure (logs it
    and returns normally) rather than propagating it to the caller. -/
theorem c2_batch_failure_rolls_back_and_is_swallowed (env : BatchEnv) (batch : List PoemRec)
    (tx : TxState) (e : String) (hne : batch ≠ [])
    (h : process_batch_inner env batch tx.pending = Except.error e) :
    process_and_insert_batch env batch tx = Except.ok ⟨tx.committed, tx.committed⟩ := by
  have hb : batch.isEmpty = false := by
    cases batch
    · exact absurd rfl hne
    · rfl
  unfold process_and_insert_batch
  simp [hb, h]

theorem c2_witness :
    ([recL] ≠ ([] : List PoemRec)) ∧
    process_batch_inner envDbFail [recL] txEmpty.pending = Except.error "DBError" ∧
    process_and_insert_batch envDbFail [recL] txEmpty =
      Except.ok ⟨txEmpty.committed, txEmpty.committed⟩ :=
  ⟨by simp, rfl,
    c2_batch_failure_rolls_back_and_is_swallowed envDbFail [recL] txEmpty "DBError"
      (by simp) rfl⟩

/-! ## Claim C3 -/

/-- Claim C3 is false on the code: ingesting the one-file corpus containing
    the scenario document with a *succeeding* embedding service produces 0
    Line rows, not 2 — `split_sentences` discards fragments shorter than 4
    characters and both "一句" and "二句" have length 2. -/
theorem c3_counterexample :
    (run_import ctxId (fun _ _ => envOk2) [⟨"f1", Except.ok dataT⟩] [] txEmpty).tx.committed =
      ⟨["D"], [("A", 1)], [("T", some 1, "一句。二句！")], []⟩ ∧
    (run_import ctxId (fun _ _ => envOk2) [⟨"f1", Except.ok dataT⟩] []
        txEmpty).tx.committed.lines.length ≠ 2 :=
  ⟨rfl, by decide⟩

/-- Claim C3 (amended): ingesting the one-file scenario corpus produces
    exactly 1 Dynasty row ("D"), 1 Author row ("A" linked to "D"), 1 Poem
    row with full_content "一句。二句！", and 0 Line rows — regardless of
    the embedding service's behaviour and of worker completion order, since
    both sentences are shorter than the 4-character minimum and are dropped
    before any embedding call. -/
theorem c3_scenario_zero_lines (oc : Nat → Nat → ApiOutcome) (ord : List Nat) :
    run_import ctxId (fun _ _ => ⟨oc, ord, fun _ => false⟩) [⟨"f1", Except.ok dataT⟩] []
        txEmpty =
      ⟨⟨⟨["D"], [("A", 1)], [("T", some 1, "一句。二句！")], []⟩,
        ⟨["D"], [("A", 1)], [("T", some 1, "一句。二句！")], []⟩⟩, ["f1"]⟩ :=
  rfl

/-! ## Claim C5 -/

/-- A one-document store whose single line is an exact match for the query
    vector below. -/
def docD : DocRow := ⟨1, "T", "A", "D", "内容", [[1]]⟩

/-- A distance function with an exact match at equal vectors. -/
def distEx : Emb → Emb → Rat := fun a b => if a = b then 0 else 1

/-- Claim C5 fails at distance 0 (code bug): the document's minimum cosine
    distance to the query is 0, so the claim (and the code's own comment,
    `1 - distance`) demands a presented score of 1, but the endpoint
    computes `1.0 - float(row['distance']) if row['distance'] else 0.0`,
    whose truthiness test sends the falsy distance 0.0 to the `else`
    branch: the presented score is 0. -/
theorem c5_exact_match_scores_zero :
    minDist distEx [1] docD.lineEmbs = 0 ∧
    semantic_search distEx [1] [docD] 10 0 = [(docD, 0)] ∧
    (1 - (0 : Rat)) = 1 ∧ (0 : Rat) ≠ 1 := by
  refine ⟨rfl, rfl, by norm_num, by norm_num⟩

/-! ## Claim C6 -/

/-- Claim C6 is false on the code: an HTTP 403 (a client error that is not
    rate-limiting) does *not* short-circuit the retry loop — all 3 attempts
    are made, where the claim demands exactly 1. -/
theorem c6_counterexample :
    retryEmbeddings (fun _ => ApiOutcome.httpErr 403) = (none, 3) ∧ (3 : Nat) ≠ 1 :=
  ⟨rfl, by decide⟩

/-- The loop's classification of one attempt's outcome: everything except
    a well-formed reply falls through to the next attempt — a 2xx body
    without `data` only logs, an `HTTPError` breaks only at status 400,
    and the generic `except` (timeouts, connection errors, malformed JSON
    bodies) always retries. -/
def retryable : ApiOutcome → Bool
  | .ok _ => false
  | .noData => true
  | .httpErr s => s != 400
  | .exn => true

/-- A retryable outcome makes the loop move on to the next attempt. -/
theorem retry_loop_step (outcomes : Nat → ApiOutcome) (fuel attempt : Nat)
    (h : retryable (outcomes attempt) = true) :
    retry_loop outcomes (fuel + 1) attempt = retry_loop outcomes fuel (attempt + 1) := by
  cases ho : outcomes attempt with
  | ok embs => rw [ho] at h; simp [retryable] at h
  | noData => simp [retry_loop, ho]
  | exn => simp [retry_loop, ho]
  | httpErr s =>
    rw [ho] at h
    simp [retryable] at h
    simp [retry_loop, ho, h]

/-- Claim C6 (amended): in the Embedding Client's retry loop only an HTTP
    400 response is non-retryable and short-circuits immediately (1
    attempt, absent result); every other failure outcome — any other HTTP
    error status, including client errors such as 403/404 and also 429 and
    the 5xx server errors, as well as the transient failures caught by the
    generic handler (timeouts, malformed response bodies) and `data`-less
    replies — is retried up to the full 3 attempts before degrading to an
    absent result. -/
theorem c6_only_400_short_circuits (outcomes : Nat → ApiOutcome) :
    (outcomes 0 = ApiOutcome.httpErr 400 → retryEmbeddings outcomes = (none, 1)) ∧
    ((∀ i, i < 3 → retryable (outcomes i) = true) → retryEmbeddings outcomes = (none, 3)) := by
  constructor
  · intro h0
    simp [retryEmbeddings, retry_loop, h0]
  · intro h
    have e0 : retry_loop outcomes 3 0 = retry_loop outcomes 2 1 :=
      retry_loop_step outcomes 2 0 (h 0 (by omega))
    have e1 : retry_loop outcomes 2 1 = retry_loop outcomes 1 2 :=
      retry_loop_step outcomes 1 1 (h 1 (by omega))
    have e2 : retry_loop outcomes 1 2 = retry_loop outcomes 0 3 :=
      retry_loop_step outcomes 0 2 (h 2 (by omega))
    show retry_loop outcomes 3 0 = (none, 3)
    rw [e0, e1, e2]
    rfl

theorem c6_witness :
    ((fun _ => ApiOutcome.httpErr 400) 0 = ApiOutcome.httpErr 400 ∧
      retryEmbeddings (fun _ => ApiOutcome.httpErr 400) = (none, 1)) ∧
    ((∀ i, i < 3 → retryable ((fun _ => ApiOutcome.exn) i) = true) ∧
      retryEmbeddings (fun _ => ApiOutcome.exn) = (none, 3)) :=
  ⟨⟨rfl, (c6_only_400_short_circuits (fun _ => ApiOutcome.httpErr 400)).1 rfl⟩,
   ⟨fun _ _ => rfl, (c6_only_400_short_circuits (fun _ => ApiOutcome.exn)).2 (fun _ _ => rfl)⟩⟩

/-! ## Claim C9 -/

/-- A record whose single paragraph contains an interior space. -/
def pdWS : Json :=
  Json.obj [("title", .str "T"), ("author", .str "A"), ("dynasty", .str "D"),
            ("paragraphs", .arr [.str "一二 三四"])]

/-- Claim C9 is false on the code: `process_poem_data` builds the stored
    content as `conv(''.join(paragraphs))` with *no* whitespace removal, so
    the interior space of this record's paragraph survives into the Poem's
    full_content (whitespace is only stripped later, during sentence
    splitting for Line rows). -/
theorem c9_counterexample :
    process_poem_data ctxId pdWS "f" Json.null = some ⟨"T", "A", "D", "一二 三四"⟩ ∧
    ("一二 三四".data.any Char.isWhitespace) = true :=
  ⟨rfl, rfl⟩

/-- Claim C9 (amended): for every accepted poem record, the stored content
    (the Poem's full_content) equals the script-normalized concatenation of
    the record's paragraph lines, with no whitespace stripping. -/
theorem c9_full_content_is_converted_join (ctx : ImporterCtx) (pd : Json) (fp : String)
    (fb : Json) (r : PoemRec) (h : process_poem_data ctx pd fp fb = some r) :
    ∃ s, pyJoin (pd.getD "paragraphs" (Json.arr [])) = some s ∧ r.content = ctx.conv s := by
  unfold process_poem_data at h
  cases hj : pyJoin (pd.getD "paragraphs" (Json.arr [])) with
  | none =>
    rw [hj] at h
    cases hA : resolve_author_str pd fp fb <;> rw [hA] at h <;> simp at h
  | some s =>
    refine ⟨s, rfl, ?_⟩
    rw [hj] at h
    cases hA : resolve_author_str pd fp fb with
    | none => rw [hA] at h; simp at h
    | some a =>
      rw [hA] at h
      simp only [Option.map_some'] at h
      by_cases hc : ctx.conv s = ""
      · rw [if_pos hc] at h
        exact absurd h (by simp)
      · rw [if_neg hc] at h
        have hr := Option.some.inj h
        rw [← hr]

theorem c9_witness :
    process_poem_data ctxId pdWS "f" Json.null = some ⟨"T", "A", "D", "一二 三四"⟩ ∧
    (∃ s, pyJoin (pdWS.getD "paragraphs" (Json.arr [])) = some s ∧
      (PoemRec.mk "T" "A" "D" "一二 三四").content = ctxId.conv s) :=
  ⟨rfl, c9_full_content_is_converted_join ctxId pdWS "f" Json.null ⟨"T", "A", "D", "一二 三四"⟩ rfl⟩

/-! ## Claim C10 -/

theorem pyTrunc_length_le (s : String) (n : Nat) : (pyTrunc s n).length ≤ n := by
  show (s.data.take n).length ≤ n
  simp [List.length_take]

theorem infer_dynasty_length_le (ctx : ImporterCtx) (a fp : String)
    (hmap : ∀ x d, ctx.author_dynasty_map x = some d → d.length ≤ 200) :
    (infer_dynasty ctx a fp).length ≤ 200 := by
  unfold infer_dynasty
  cases hm : ctx.author_dynasty_map a with
  | some d => exact hmap a d hm
  | none =>
    dsimp only
    cases hc : classical_texts.find?
        (fun p => strContains (pyLower (pyLower fp)) (pyLower p.1)) with
    | some p =>
      have hmem := List.mem_of_find?_eq_some hc
      have hall : ∀ q ∈ classical_texts, q.2.length ≤ 200 := by decide
      exact hall p hmem
    | none =>
      cases hk : path_keyword_map.find? (fun p => strContains (pyLower fp) p.1) with
      | some p =>
        have hmem := List.mem_of_find?_eq_some hk
        have hall : ∀ q ∈ path_keyword_map, q.2.length ≤ 200 := by decide
        exact hall p hmem
      | none => decide

/-- Claim C10: every record accepted by `process_poem_data` has a title of
    at most 500 characters and author/dynasty names of at most 200
    characters each; an over-long title is silently truncated to its first
    500 characters (the record is accepted, not rejected).  The hypothesis
    on the pre-scan table holds for the real table because its values were
    truncated to 200 characters when it was built (line 127). -/
theorem c10_field_length_bounds (ctx : ImporterCtx) (pd : Json) (fp : String) (fb : Json)
    (r : PoemRec)
    (hmap : ∀ x d, ctx.author_dynasty_map x = some d → d.length ≤ 200)
    (h : process_poem_data ctx pd fp fb = some r) :
    r.title = pyTrunc (ctx.conv (pyStrip (pyStr (pd.getD "title" (Json.str "无题"))))) 500 ∧
    r.title.length ≤ 500 ∧ r.author.length ≤ 200 ∧ r.dynasty.length ≤ 200 := by
  unfold process_poem_data at h
  cases hA : resolve_author_str pd fp fb with
  | none => rw [hA] at h; simp at h
  | some a =>
    rw [hA] at h
    cases hj : (pyJoin (pd.getD "paragraphs" (Json.arr []))).map ctx.conv with
    | none => rw [hj] at h; simp at h
    | some content =>
      rw [hj] at h
      dsimp only at h
      by_cases hc : content = ""
      · rw [if_pos hc] at h
        exact absurd h (by simp)
      · rw [if_neg hc] at h
        have hr := Option.some.inj h
        rw [← hr]
        refine ⟨rfl, pyTrunc_length_le _ _, pyTrunc_length_le _ _, ?_⟩
        dsimp only
        by_cases hd : pyTrunc (ctx.conv (pyStrip (pyStr (pd.getD "dynasty" (Json.str ""))))) 200 = ""
        · rw [if_pos hd]
          exact infer_dynasty_length_le ctx _ fp hmap
        · rw [if_neg hd]
          exact pyTrunc_length_le _ _

/-- A record with a 501-character title (truncated, not rejected). -/
def pdLong : Json :=
  Json.obj [("title", .str (String.mk (List.replicate 501 'x'))), ("author", .str "A"),
            ("dynasty", .str "D"), ("paragraphs", .arr [.str "甲乙丙丁"])]

def recLong : PoemRec := ⟨String.mk (List.replicate 500 'x'), "A", "D", "甲乙丙丁"⟩

theorem c10_witness :
    process_poem_data ctxId pdLong "f" Json.null = some recLong ∧
    (recLong.title =
        pyTrunc (ctxId.conv (pyStrip (pyStr (pdLong.getD "title" (Json.str "无题"))))) 500 ∧
      recLong.title.length ≤ 500 ∧ recLong.author.length ≤ 200 ∧ recLong.dynasty.length ≤ 200) :=
  ⟨rfl, c10_field_length_bounds ctxId pdLong "f" Json.null recLong
    (fun _ _ hh => Option.noConfusion hh) rfl⟩

/-! ## Claim C8 -/

theorem foldl_set_getElem {β : Type} (g : Nat → β) :
    ∀ (l : List Nat) (acc : List β) (j : Nat),
      (l.foldl (fun a i => a.set i (g i)) acc)[j]? =
        if j ∈ l then (if j < acc.length then some (g j) else none) else acc[j]? := by
  intro l
  induction l with
  | nil => intro acc j; simp
  | cons i l ih =>
    intro acc j
    rw [List.foldl_cons, ih]
    by_cases hjl : j ∈ l
    · simp [hjl, List.mem_cons, List.length_set]
    · by_cases hji : j = i
      · subst hji
        by_cases hlen : j < acc.length
        · simp [hjl, hlen, List.length_set, List.getElem?_set_self hlen]
        · rw [List.set_eq_of_length_le (Nat.le_of_not_lt hlen)]
          simp [hjl, hlen]
          omega
      · simp [hjl, hji, List.length_set, List.getElem?_set_ne (Ne.symm hji)]

theorem assemble_eq_of_perm (n : Nat) (compute : Nat → List (Option Emb)) (order : List Nat)
    (h : order.Perm (List.range n)) :
    assemble n compute order = (List.range n).map (fun i => some (compute i)) := by
  apply List.ext_getElem?
  intro j
  unfold assemble
  rw [foldl_set_getElem]
  by_cases hj : j < n
  · have hjm : j ∈ order := h.mem_iff.mpr (List.mem_range.mpr hj)
    simp [hjm, hj, List.getElem?_map, List.getElem?_range hj]
  · have hjm : j ∉ order := fun hh => hj (List.mem_range.mp (h.mem_iff.mp hh))
    have h1 : (List.replicate n (none : Option (List (Option Emb)))).length ≤ j :=
      by simpa using Nat.le_of_not_lt hj
    have h2 : ((List.range n).map (fun i => some (compute i))).length ≤ j := by
      simpa using Nat.le_of_not_lt hj
    simp [hjm, List.getElem?_eq_none h1, List.getElem?_eq_none h2]

theorem mergeResults_go (l : List (List (Option Emb))) :
    ∀ acc, ((l.map some).foldl
        (fun acc r =>
          match r with
          | some rb => if rb.isEmpty then acc else acc ++ rb
          | none => acc) acc)
      = acc ++ l.flatten := by
  induction l with
  | nil => intro acc; simp
  | cons rb l ih =>
    intro acc
    rw [List.map_cons, List.foldl_cons, ih]
    cases rb with
    | nil => simp
    | cons x xs => simp

theorem mergeResults_map_some (l : List (List (Option Emb))) :
    mergeResults (l.map some) = l.flatten := by
  have := mergeResults_go l []
  simpa [mergeResults] using this

/-- Claim C8: for every poem batch and every completion order of the
    embedding sub-batch workers (any permutation of the submission
    indices), the merged embedding list `mergeResults (assemble …)` equals
    the concatenation of the per-sub-batch results in original submission
    order — results are keyed by submission index, so the merge is
    identical across all completion orderings. -/
theorem c8_merge_is_submission_order (n : Nat) (compute : Nat → List (Option Emb))
    (order : List Nat) (h : order.Perm (List.range n)) :
    mergeResults (assemble n compute order) = ((List.range n).map compute).flatten := by
  rw [assemble_eq_of_perm n compute order h]
  rw [show (List.range n).map (fun i => some (compute i))
        = ((List.range n).map compute).map some from by rw [List.map_map]; rfl]
  exact mergeResults_map_some _

theorem c8_witness :
    ([1, 0].Perm (List.range 2)) ∧
    mergeResults (assemble 2 (fun i => [some [(i : Rat)]]) [1, 0]) =
      ((List.range 2).map (fun i => [some [(i : Rat)]])).flatten :=
  ⟨by decide, c8_merge_is_submission_order 2 (fun i => [some [(i : Rat)]]) [1, 0] (by decide)⟩

/-! ## Claim C7 -/

theorem validIndicesFrom_length :
    ∀ (ts : List String) (n : Nat),
      (validIndicesFrom n ts).length = (ts.filter keepText).length := by
  intro ts
  induction ts with
  | nil => intro n; rfl
  | cons t ts ih =>
    intro n
    cases hk : keepText t <;> simp [validIndicesFrom, hk, List.filter_cons, ih]

theorem validIndicesFrom_mem_lower :
    ∀ (ts : List String) (n j : Nat), j ∈ validIndicesFrom n ts → n ≤ j := by
  intro ts
  induction ts with
  | nil => intro n j h; simp [validIndicesFrom] at h
  | cons t ts ih =>
    intro n j h
    unfold validIndicesFrom at h
    cases hk : keepText t
    · rw [hk] at h
      simp only [Bool.false_eq_true, if_false] at h
      exact Nat.le_of_succ_le (ih (n + 1) j h)
    · rw [hk] at h
      simp only [if_true] at h
      rcases List.mem_cons.mp h with h1 | h2
      · omega
      · exact Nat.le_of_succ_le (ih (n + 1) j h2)

theorem validIndicesFrom_mem_upper :
    ∀ (ts : List String) (n j : Nat), j ∈ validIndicesFrom n ts → j < n + ts.length := by
  intro ts
  induction ts with
  | nil => intro n j h; simp [validIndicesFrom] at h
  | cons t ts ih =>
    intro n j h
    unfold validIndicesFrom at h
    cases hk : keepText t
    · rw [hk] at h
      simp only [Bool.false_eq_true, if_false] at h
      have := ih (n + 1) j h
      simp only [List.length_cons]
      omega
    · rw [hk] at h
      simp only [if_true] at h
      rcases List.mem_cons.mp h with h1 | h2
      · simp only [List.length_cons]; omega
      · have := ih (n + 1) j h2
        simp only [List.length_cons]
        omega

theorem validIndicesFrom_pairwise :
    ∀ (ts : List String) (n : Nat), List.Pairwise (· < ·) (validIndicesFrom n ts) := by
  intro ts
  induction ts with
  | nil => intro n; simp [validIndicesFrom]
  | cons t ts ih =>
    intro n
    unfold validIndicesFrom
    cases hk : keepText t
    · simp only [Bool.false_eq_true, if_false]
      exact ih (n + 1)
    · simp only [if_true]
      refine List.Pairwise.cons ?_ (ih (n + 1))
      intro j hj
      exact Nat.lt_of_succ_le (validIndicesFrom_mem_lower ts (n + 1) j hj)

theorem validIndicesFrom_not_mem_blank :
    ∀ (ts : List String) (n i : Nat) (t : String), ts[i]? = some t → keepText t = false →
      (n + i) ∉ validIndicesFrom n ts := by
  intro ts
  induction ts with
  | nil => intro n i t ht _; simp at ht
  | cons t0 ts ih =>
    intro n i t ht hk
    cases i with
    | zero =>
      simp only [List.getElem?_cons_zero, Option.some.injEq] at ht
      subst ht
      unfold validIndicesFrom
      rw [hk]
      simp only [Bool.false_eq_true, if_false, Nat.add_zero]
      intro hmem
      have := validIndicesFrom_mem_lower ts (n + 1) n hmem
      omega
    | succ i =>
      simp only [List.getElem?_cons_succ] at ht
      unfold validIndicesFrom
      cases hk0 : keepText t0
      · simp only [Bool.false_eq_true, if_false]
        have := ih (n + 1) i t ht hk
        intro hmem
        apply this
        have : n + (i + 1) = (n + 1) + i := by omega
        rw [← this]
        exact hmem
      · simp only [if_true]
        intro hmem
        rcases List.mem_cons.mp hmem with h1 | h2
        · omega
        · apply ih (n + 1) i t ht hk
          have : n + (i + 1) = (n + 1) + i := by omega
          rw [← this]
          exact h2

theorem fillResults_ok :
    ∀ (embs : List Emb) (is2 : List Nat) (res : List (Option Emb)),
      embs.length ≤ is2.length →
      ∃ out, fillResults res is2 embs = Except.ok out ∧ out.length = res.length := by
  intro embs
  induction embs with
  | nil =>
    intro is2 res _
    cases is2 <;> exact ⟨res, rfl, rfl⟩
  | cons e es ih =>
    intro is2 res h
    cases is2 with
    | nil => simp at h
    | cons i is3 =>
      obtain ⟨out, ho, hl⟩ := ih is3 (res.set i (some e))
        (by simpa using Nat.le_of_succ_le_succ h)
      exact ⟨out, ho, by rw [hl]; simp⟩

theorem fillResults_untouched :
    ∀ (embs : List Emb) (is2 : List Nat) (res out : List (Option Emb)) (j : Nat),
      fillResults res is2 embs = Except.ok out → j ∉ is2 → out[j]? = res[j]? := by
  intro embs
  induction embs with
  | nil =>
    intro is2 res out j h _
    cases is2 <;> (cases h; rfl)
  | cons e es ih =>
    intro is2 res out j h hj
    cases is2 with
    | nil => cases h
    | cons i is3 =>
      have hji : j ≠ i := fun hh => hj (hh ▸ List.mem_cons_self i is3)
      have hj3 : j ∉ is3 := fun hh => hj (List.mem_cons_of_mem i hh)
      have := ih is3 (res.set i (some e)) out j h hj3
      rw [this, List.getElem?_set_ne (Ne.symm hji)]

theorem fillResults_written :
    ∀ (embs : List Emb) (is2 : List Nat) (res out : List (Option Emb)),
      fillResults res is2 embs = Except.ok out → List.Pairwise (· < ·) is2 →
      ∀ (k i : Nat) (e : Emb), is2[k]? = some i → embs[k]? = some e → i < res.length →
        out[i]? = some (some e) := by
  intro embs
  induction embs with
  | nil => intro is2 res out _ _ k i e _ he _; simp at he
  | cons e0 es ih =>
    intro is2 res out h hp k i e hi he hlt
    cases is2 with
    | nil => cases h
    | cons i0 is3 =>
      have hp1 : ∀ x ∈ is3, i0 < x := fun x hx => List.rel_of_pairwise_cons hp hx
      have hp2 : List.Pairwise (· < ·) is3 := hp.of_cons
      cases k with
      | zero =>
        simp only [List.getElem?_cons_zero, Option.some.injEq] at hi he
        subst hi
        subst he
        have hnot : i0 ∉ is3 := fun hh => Nat.lt_irrefl i0 (hp1 i0 hh)
        have hu := fillResults_untouched es is3 (res.set i0 (some e0)) out i0 h hnot
        rw [hu, List.getElem?_set_self (by simpa using hlt)]
      | succ k =>
        simp only [List.getElem?_cons_succ] at hi he
        exact ih is3 (res.set i0 (some e0)) out h hp2 k i e hi he (by simpa using hlt)

theorem getElem?_some_lt {α : Type} {l : List α} {i : Nat} {a : α} (h : l[i]? = some a) :
    i < l.length := by
  by_contra hn
  rw [List.getElem?_eq_none (Nat.le_of_not_lt hn)] at h
  cases h

/-- Claim C7: for every input batch and any embedding-service behaviour
    whose successful replies have one embedding per non-blank input (the
    API contract), `get_batch_embeddings` returns normally with a list the
    same length as the input; blank/whitespace-only inputs map to `none` at
    their original indices; on success the `k`-th returned embedding lands
    at the `k`-th non-blank input's original position; and on exhausted
    retries the whole batch degrades to all-`none` instead of raising. -/
theorem c7_length_preserving_rehydration (outcomes : Nat → ApiOutcome) (texts : List String)
    (hapi : ∀ embs, (retryEmbeddings outcomes).1 = some embs →
      embs.length = (texts.filter keepText).length) :
    ∃ res, get_batch_embeddings outcomes texts = Except.ok res ∧
      res.length = texts.length ∧
      (∀ (i : Nat) (t : String), texts[i]? = some t → keepText t = false →
        res[i]? = some none) ∧
      ((retryEmbeddings outcomes).1 = none → res = List.replicate texts.length none) ∧
      (∀ (embs : List Emb) (k i : Nat) (e : Emb), (retryEmbeddings outcomes).1 = some embs →
        (validIndicesFrom 0 texts)[k]? = some i → embs[k]? = some e →
        res[i]? = some (some e)) := by
  unfold get_batch_embeddings
  cases hT : texts.isEmpty
  · simp only [hT, Bool.false_eq_true, if_false]
    cases hV : (texts.filter keepText).isEmpty
    · simp only [hV, Bool.false_eq_true, if_false]
      cases hR : (retryEmbeddings outcomes).1 with
      | none =>
        refine ⟨List.replicate texts.length none, rfl, by simp, ?_, fun _ => rfl, ?_⟩
        · intro i t ht _
          exact List.getElem?_replicate_of_lt (getElem?_some_lt ht)
        · intro embs k i e hsome
          exact fun _ _ => Option.noConfusion hsome
      | some embs =>
        cases embs with
        | nil =>
          exfalso
          have h0 := hapi [] hR
          have : texts.filter keepText ≠ [] := by
            intro hh
            rw [hh] at hV
            simp at hV
          exact this (List.eq_nil_of_length_eq_zero h0.symm)
        | cons e es =>
          have hlen : (e :: es).length = (validIndicesFrom 0 texts).length := by
            rw [hapi (e :: es) hR, validIndicesFrom_length]
          obtain ⟨out, ho, hl⟩ := fillResults_ok (e :: es) (validIndicesFrom 0 texts)
            (List.replicate texts.length none) (Nat.le_of_eq hlen)
          refine ⟨out, ?_, by rw [hl]; simp, ?_, ?_, ?_⟩
          · exact ho
          · intro i t ht hk
            have hnot : i ∉ validIndicesFrom 0 texts := by
              have := validIndicesFrom_not_mem_blank texts 0 i t ht hk
              simpa using this
            rw [fillResults_untouched (e :: es) (validIndicesFrom 0 texts) _ out i ho hnot]
            exact List.getElem?_replicate_of_lt (getElem?_some_lt ht)
          · intro hnone
            exact absurd hnone (by simp)
          · intro embs k i em hsome hvk hek
            have hee : embs = e :: es := (Option.some.inj hsome).symm
            subst hee
            have hi_mem : i ∈ validIndicesFrom 0 texts := List.getElem?_mem hvk
            have hi_lt : i < texts.length := by
              have := validIndicesFrom_mem_upper texts 0 i hi_mem
              simpa using this
            exact fillResults_written (e :: es) (validIndicesFrom 0 texts) _ out ho
              (validIndicesFrom_pairwise texts 0) k i em hvk hek (by simpa using hi_lt)
    · -- no non-blank inputs: the network is skipped entirely
      simp only [hV, if_true]
      refine ⟨List.replicate texts.length none, rfl, by simp, ?_, fun _ => rfl, ?_⟩
      · intro i t ht _
        exact List.getElem?_replicate_of_lt (getElem?_some_lt ht)
      · intro embs k i e _ hvk _
        exfalso
        have h0 : (validIndicesFrom 0 texts).length = 0 := by
          rw [validIndicesFrom_length, List.length_eq_zero]
          exact List.isEmpty_iff.mp hV
        rw [List.eq_nil_of_length_eq_zero h0] at hvk
        cases hvk
  · -- texts = []
    have hnil : texts = [] := List.isEmpty_iff.mp hT
    subst hnil
    refine ⟨[], by simp, rfl, ?_, by simp, ?_⟩
    · intro i t ht
      simp at ht
    · intro embs k i e _ hvk
      simp [validIndicesFrom] at hvk

theorem c7_witness :
    (∀ embs, (retryEmbeddings (fun _ => ApiOutcome.ok [[5], [6]])).1 = some embs →
      embs.length = ((["a", " ", "", "b"] : List String).filter keepText).length) ∧
    (∃ res, get_batch_embeddings (fun _ => ApiOutcome.ok [[5], [6]]) ["a", " ", "", "b"] =
        Except.ok res ∧
      res.length = (["a", " ", "", "b"] : List String).length ∧
      (∀ (i : Nat) (t : String), (["a", " ", "", "b"] : List String)[i]? = some t →
        keepText t = false → res[i]? = some none) ∧
      ((retryEmbeddings (fun _ => ApiOutcome.ok [[5], [6]])).1 = none →
        res = List.replicate (["a", " ", "", "b"] : List String).length none) ∧
      (∀ (embs : List Emb) (k i : Nat) (e : Emb),
        (retryEmbeddings (fun _ => ApiOutcome.ok [[5], [6]])).1 = some embs →
        (validIndicesFrom 0 ["a", " ", "", "b"])[k]? = some i → embs[k]? = some e →
        res[i]? = some (some e))) := by
  constructor
  · intro embs h
    rw [show (retryEmbeddings (fun _ => ApiOutcome.ok [[5], [6]])).1
        = some [[5], [6]] from rfl] at h
    rw [← Option.some.inj h]
    rfl
  · exact c7_length_preserving_rehydration (fun _ => ApiOutcome.ok [[5], [6]])
      ["a", " ", "", "b"]
      (fun embs h => by
        rw [show (retryEmbeddings (fun _ => ApiOutcome.ok [[5], [6]])).1
            = some [[5], [6]] from rfl] at h
        rw [← Option.some.inj h]
        rfl)

end Poetry
